import Mathlib

/-!
Verification of the conversation-transcript logic of the glass-chat-craft
repository.

The embedded code is the transcript builder inside `fetchDraft`
(src/pages/Chat.tsx, lines 182-222), the message-list update inside
`deleteFeedback` (lines 386-411), the fetch join of `fetchDraft`
(lines 163-234), and the feedback-row insertion of the serverless handler
together with the `email_feedbacks` schema default.

Timestamps (`created_at` columns parsed with `new Date(...)`) are embedded
as natural numbers (epoch milliseconds); `Date` comparison in the source is
numeric comparison.  The call `new Date()` that closes the last attribution
window is embedded as an explicit `currentTime` argument.
-/

/-- Row of `draft_versions` as selected in `fetchDraft` (a revision). -/
structure DraftVersion where
  id : String
  version : Nat
  content : String
  created_at : Nat
deriving DecidableEq, Repr

/-- Row of `email_feedbacks` as selected in `fetchDraft` (a feedback entry). -/
structure Feedback where
  id : String
  feedback_text : String
  is_valid : Bool
  created_at : Nat
deriving DecidableEq, Repr

/-- The `type` field of the `Message` interface in Chat.tsx. -/
inductive Role where
  | user
  | assistant
deriving DecidableEq, Repr

/-- The `Message` interface of Chat.tsx; `isError` and `feedbackId` are
optional fields, absent (`none`) unless set. -/
structure Message where
  id : String
  type : Role
  content : String
  isError : Option Bool := none
  feedbackId : Option String := none
deriving DecidableEq, Repr

/-- The initial message pushed for `draftData.user_input` (Chat.tsx 186-190). -/
def initialMessage (userInput : String) : Message :=
  { id := "initial", type := Role.user, content := userInput }

/-- The message pushed for one draft version (Chat.tsx 195-199). -/
def versionMessage (v : DraftVersion) : Message :=
  { id := "version-" ++ v.id, type := Role.assistant, content := v.content }

/-- The message pushed for one feedback entry (Chat.tsx 212-218):
`isError: !feedback.is_valid`, `feedbackId: feedback.id`. -/
def feedbackMessage (f : Feedback) : Message :=
  { id := "feedback-" ++ f.id, type := Role.user, content := f.feedback_text,
    isError := some (!f.is_valid), feedbackId := some f.id }

/-- Close bound of the attribution window:
`versions[index + 1]?.created_at` when a next version exists, else the
wall clock `new Date()` (Chat.tsx 202, 206). -/
def windowClose (rest : List DraftVersion) (currentTime : Nat) : Nat :=
  match rest with
  | [] => currentTime
  | w :: _ => w.created_at

/-- The filter predicate of Chat.tsx 208:
`feedbackDate > versionDate && feedbackDate < nextVersionDateObj`. -/
def inWindow (openBound closeBound : Nat) (f : Feedback) : Bool :=
  decide (openBound < f.created_at) && decide (f.created_at < closeBound)

/-- The `versions.forEach` loop of Chat.tsx 193-220: for each version push
its assistant message, then the messages of the feedbacks falling in its
attribution window, in the order the feedbacks were supplied. -/
def interleave (feedbacks : List Feedback) (currentTime : Nat) :
    List DraftVersion → List Message
  | [] => []
  | v :: rest =>
    versionMessage v ::
      ((feedbacks.filter (inWindow v.created_at (windowClose rest currentTime))).map
          feedbackMessage
        ++ interleave feedbacks currentTime rest)

/-- The whole `messageHistory` construction of Chat.tsx 182-220. -/
def buildMessageHistory (userInput : String) (versions : List DraftVersion)
    (feedbacks : List Feedback) (currentTime : Nat) : List Message :=
  initialMessage userInput :: interleave feedbacks currentTime versions

/-- The join and error propagation of `fetchDraft` (Chat.tsx 163-234):
versions and feedbacks are fetched, `versionsResult.error` is checked
first, then `feedbacksResult.error`; only when both succeeded is the
message history built. -/
def loadTranscript (userInput : String)
    (versionsResult : Except String (List DraftVersion))
    (feedbacksResult : Except String (List Feedback)) (currentTime : Nat) :
    Except String (List Message) :=
  match versionsResult with
  | Except.error e => Except.error e
  | Except.ok versions =>
    match feedbacksResult with
    | Except.error e => Except.error e
    | Except.ok feedbacks =>
      Except.ok (buildMessageHistory userInput versions feedbacks currentTime)

/-- Effect of `fetchDraft` on the `messages` state: `setMessages` runs only
on success; the catch branch leaves the message list untouched
(Chat.tsx 222-233). -/
def messagesAfterLoad (prev : List Message)
    (result : Except String (List Message)) : List Message :=
  match result with
  | Except.error _ => prev
  | Except.ok ms => ms

/-- The `setMessages` updater inside `deleteFeedback` (Chat.tsx 397):
`prev.filter(m => m.feedbackId !== feedbackId)`.  A message without a
`feedbackId` field compares unequal to any string and is kept. -/
def deleteFeedbackUpdate (messages : List Message) (feedbackId : String) :
    List Message :=
  messages.filter fun m => !(m.feedbackId == some feedbackId)

/-- The row payload inserted into `email_feedbacks` by the serverless
handler on the feedback path (src/unnamed/part_002, lines 128-136). -/
structure FeedbackInsert where
  draft_id : String
  feedback_text : String
  is_valid : Bool
deriving DecidableEq, Repr

/-- The handler inserts `{ draft_id, feedback_text, is_valid: true }`. -/
def handlerFeedbackInsert (draftId feedbackText : String) : FeedbackInsert :=
  { draft_id := draftId, feedback_text := feedbackText, is_valid := true }

/-- Schema default of `email_feedbacks.is_valid`
(src/unnamed/part_001, line 51: `is_valid BOOLEAN NOT NULL DEFAULT true`). -/
def email_feedbacks_is_valid_default : Bool := true

/-- The stored `email_feedbacks` row resulting from an insert payload,
with the generated row id and creation timestamp. -/
def rowOfInsert (p : FeedbackInsert) (rowId : String) (ts : Nat) : Feedback :=
  { id := rowId, feedback_text := p.feedback_text, is_valid := p.is_valid,
    created_at := ts }

/-- Number of attribution windows of the traversal that contain feedback
`f`; mirrors the window sequence of `interleave`. -/
def windowCount (f : Feedback) (currentTime : Nat) : List DraftVersion → Nat
  | [] => 0
  | v :: rest =>
    (if inWindow v.created_at (windowClose rest currentTime) f then 1 else 0)
      + windowCount f currentTime rest

-- scratch sanity checks (spec section 8 scenario)
example :
    buildMessageHistory "Write a launch email"
      [{ id := "v1", version := 1, content := "Draft A", created_at := 100 }]
      [{ id := "f1", feedback_text := "too long", is_valid := false, created_at := 101 }]
      200
    = [initialMessage "Write a launch email",
       versionMessage { id := "v1", version := 1, content := "Draft A", created_at := 100 },
       feedbackMessage { id := "f1", feedback_text := "too long", is_valid := false, created_at := 101 }] := by
  decide

example :
    buildMessageHistory "r" [] [] 5 = [initialMessage "r"] := by decide

/-! ## Shared structural lemmas about the traversal -/

theorem interleave_cons (feedbacks : List Feedback) (currentTime : Nat)
    (v : DraftVersion) (rest : List DraftVersion) :
    interleave feedbacks currentTime (v :: rest)
      = versionMessage v ::
          ((feedbacks.filter
              (inWindow v.created_at (windowClose rest currentTime))).map
            feedbackMessage
          ++ interleave feedbacks currentTime rest) := rfl

/-- The traversal of `vs1 ++ l` ends with the traversal of `l`. -/
theorem interleave_append (feedbacks : List Feedback) (currentTime : Nat)
    (vs1 l : List DraftVersion) :
    ∃ pre, interleave feedbacks currentTime (vs1 ++ l)
      = pre ++ interleave feedbacks currentTime l := by
  induction vs1 with
  | nil => exact ⟨[], rfl⟩
  | cons a t ih =>
    obtain ⟨pre, hpre⟩ := ih
    refine ⟨versionMessage a ::
      ((feedbacks.filter
          (inWindow a.created_at (windowClose (t ++ l) currentTime))).map
        feedbackMessage ++ pre), ?_⟩
    rw [List.cons_append, interleave_cons, hpre]
    simp [List.append_assoc]

/-! ## Claim C1 -/

/-- Claim C1: for a transcript built from an original request, a revision
sequence ascending by version, and a feedback list, every feedback whose
creation timestamp lies strictly between the timestamps of adjacent
revisions `vi` and `vj` is rendered in the block of user messages that sits
immediately after `vi`'s message and before `vj`'s message. -/
theorem transcript_feedback_between_adjacent_revisions
    (u : String) (vs1 vs2 : List DraftVersion) (vi vj : DraftVersion)
    (fbs : List Feedback) (f : Feedback) (currentTime : Nat)
    (_hasc : (vs1 ++ vi :: vj :: vs2).Pairwise (fun a b => a.version < b.version))
    (hf : f ∈ fbs)
    (h1 : vi.created_at < f.created_at) (h2 : f.created_at < vj.created_at) :
    ∃ pre post,
      buildMessageHistory u (vs1 ++ vi :: vj :: vs2) fbs currentTime
        = pre ++ versionMessage vi ::
            ((fbs.filter (inWindow vi.created_at vj.created_at)).map feedbackMessage
              ++ versionMessage vj :: post)
      ∧ feedbackMessage f ∈
          (fbs.filter (inWindow vi.created_at vj.created_at)).map feedbackMessage
      ∧ ∀ m ∈ (fbs.filter (inWindow vi.created_at vj.created_at)).map feedbackMessage,
          m.type = Role.user := by
  obtain ⟨pre, hpre⟩ := interleave_append fbs currentTime vs1 (vi :: vj :: vs2)
  refine ⟨initialMessage u :: pre,
    (fbs.filter (inWindow vj.created_at (windowClose vs2 currentTime))).map feedbackMessage
      ++ interleave fbs currentTime vs2, ?_, ?_, ?_⟩
  · show initialMessage u :: interleave fbs currentTime (vs1 ++ vi :: vj :: vs2) = _
    rw [hpre, interleave_cons, interleave_cons]
    simp [windowClose]
  · exact List.mem_map_of_mem feedbackMessage
      (List.mem_filter.mpr ⟨hf, by simp [inWindow, h1, h2]⟩)
  · intro m hm
    obtain ⟨g, _, hg⟩ := List.mem_map.mp hm
    rw [← hg]
    rfl

/-- Witness for C1 at a concrete input. -/
theorem transcript_feedback_between_adjacent_revisions_witness :
    (([{ id := "v1", version := 1, content := "A", created_at := 10 },
       { id := "v2", version := 2, content := "B", created_at := 20 }] :
        List DraftVersion).Pairwise (fun a b => a.version < b.version))
    ∧ ({ id := "f1", feedback_text := "x", is_valid := true, created_at := 15 } : Feedback)
        ∈ [({ id := "f1", feedback_text := "x", is_valid := true, created_at := 15 } : Feedback)]
    ∧ (10 : Nat) < 15 ∧ (15 : Nat) < 20
    ∧ (∃ pre post,
        buildMessageHistory "r"
            ([] ++ { id := "v1", version := 1, content := "A", created_at := 10 } ::
              { id := "v2", version := 2, content := "B", created_at := 20 } :: [])
            [{ id := "f1", feedback_text := "x", is_valid := true, created_at := 15 }] 30
          = pre ++ versionMessage { id := "v1", version := 1, content := "A", created_at := 10 } ::
              (([({ id := "f1", feedback_text := "x", is_valid := true, created_at := 15 } : Feedback)].filter
                  (inWindow 10 20)).map feedbackMessage
                ++ versionMessage { id := "v2", version := 2, content := "B", created_at := 20 } :: post)
        ∧ feedbackMessage { id := "f1", feedback_text := "x", is_valid := true, created_at := 15 } ∈
            ([({ id := "f1", feedback_text := "x", is_valid := true, created_at := 15 } : Feedback)].filter
              (inWindow 10 20)).map feedbackMessage
        ∧ ∀ m ∈ ([({ id := "f1", feedback_text := "x", is_valid := true, created_at := 15 } : Feedback)].filter
              (inWindow 10 20)).map feedbackMessage,
            m.type = Role.user) :=
  ⟨by decide, by decide, by decide, by decide,
    transcript_feedback_between_adjacent_revisions "r" [] []
      { id := "v1", version := 1, content := "A", created_at := 10 }
      { id := "v2", version := 2, content := "B", created_at := 20 }
      [{ id := "f1", feedback_text := "x", is_valid := true, created_at := 15 }]
      { id := "f1", feedback_text := "x", is_valid := true, created_at := 15 }
      30 (by decide) (by decide) (by decide) (by decide)⟩

/-! ## Claim C2 -/

theorem filter_erase_of_false {p : Feedback → Bool} {f : Feedback}
    (h : p f = false) (l : List Feedback) :
    (l.erase f).filter p = l.filter p := by
  induction l with
  | nil => rfl
  | cons b t ih =>
    rw [List.erase_cons]
    by_cases hb : b = f
    · subst hb
      simp [List.filter_cons, h]
    · rw [if_neg (by simp [hb])]
      simp only [List.filter_cons, ih]

theorem interleave_erase_of_le (fbs : List Feedback) (f : Feedback)
    (currentTime : Nat) :
    ∀ vs : List DraftVersion, (∀ v ∈ vs, f.created_at ≤ v.created_at) →
      interleave (fbs.erase f) currentTime vs = interleave fbs currentTime vs := by
  intro vs
  induction vs with
  | nil => intro _; rfl
  | cons v rest ih =>
    intro h
    have hop : inWindow v.created_at (windowClose rest currentTime) f = false := by
      have : decide (v.created_at < f.created_at) = false :=
        decide_eq_false (Nat.not_lt.mpr (h v (List.mem_cons_self v rest)))
      simp [inWindow, this]
    rw [interleave_cons, interleave_cons, filter_erase_of_false hop,
      ih (fun x hx => h x (List.mem_cons_of_mem _ hx))]

theorem interleave_erase_boundary (fbs : List Feedback) (f : Feedback)
    (currentTime : Nat) :
    ∀ vs : List DraftVersion,
      vs.Pairwise (fun a b => a.created_at < b.created_at) →
      ∀ v ∈ vs, f.created_at = v.created_at →
      interleave (fbs.erase f) currentTime vs = interleave fbs currentTime vs := by
  intro vs
  induction vs with
  | nil => intro _ v hv; cases hv
  | cons w rest ih =>
    intro hpw v hv heq
    rw [List.pairwise_cons] at hpw
    obtain ⟨hw, hrest⟩ := hpw
    rcases List.mem_cons.mp hv with rfl | hv'
    · have hop : inWindow v.created_at (windowClose rest currentTime) f = false := by
        have : decide (v.created_at < f.created_at) = false :=
          decide_eq_false (by rw [heq]; exact Nat.lt_irrefl _)
        simp [inWindow, this]
      rw [interleave_cons, interleave_cons, filter_erase_of_false hop,
        interleave_erase_of_le fbs f currentTime rest
          (fun x hx => heq ▸ Nat.le_of_lt (hw x hx))]
    · have hclose : windowClose rest currentTime ≤ f.created_at := by
        cases rest with
        | nil => cases hv'
        | cons r0 rtail =>
          rcases List.mem_cons.mp hv' with rfl | hvtail
          · rw [heq]
            exact Nat.le_refl _
          · rw [List.pairwise_cons] at hrest
            exact Nat.le_of_lt (heq ▸ hrest.1 v hvtail)
      have hop : inWindow w.created_at (windowClose rest currentTime) f = false := by
        have : decide (f.created_at < windowClose rest currentTime) = false :=
          decide_eq_false (Nat.not_lt.mpr hclose)
        simp [inWindow, this]
      rw [interleave_cons, interleave_cons, filter_erase_of_false hop,
        ih hrest v hv' heq]

/-- Claim C2: a feedback whose creation timestamp exactly equals some
revision's creation timestamp contributes no display message: under the
data-model invariant that revision timestamps are strictly increasing in
version order, removing that feedback from the input leaves the built
transcript unchanged (it is excluded from every attribution window by the
strict inequalities of the interval test). -/
theorem boundary_feedback_contributes_nothing
    (u : String) (versions : List DraftVersion) (fbs : List Feedback)
    (f : Feedback) (v : DraftVersion) (currentTime : Nat)
    (hsorted : versions.Pairwise (fun a b => a.created_at < b.created_at))
    (hv : v ∈ versions) (heq : f.created_at = v.created_at) (_hf : f ∈ fbs) :
    buildMessageHistory u versions (fbs.erase f) currentTime
      = buildMessageHistory u versions fbs currentTime := by
  unfold buildMessageHistory
  rw [interleave_erase_boundary fbs f currentTime versions hsorted v hv heq]

/-- Witness for C2 at a concrete input. -/
theorem boundary_feedback_contributes_nothing_witness :
    (([{ id := "v1", version := 1, content := "A", created_at := 10 }] :
        List DraftVersion).Pairwise (fun a b => a.created_at < b.created_at))
    ∧ ({ id := "v1", version := 1, content := "A", created_at := 10 } : DraftVersion)
        ∈ [({ id := "v1", version := 1, content := "A", created_at := 10 } : DraftVersion)]
    ∧ ({ id := "f1", feedback_text := "x", is_valid := true, created_at := 10 } : Feedback).created_at
        = ({ id := "v1", version := 1, content := "A", created_at := 10 } : DraftVersion).created_at
    ∧ ({ id := "f1", feedback_text := "x", is_valid := true, created_at := 10 } : Feedback)
        ∈ [({ id := "f1", feedback_text := "x", is_valid := true, created_at := 10 } : Feedback)]
    ∧ buildMessageHistory "r"
          [{ id := "v1", version := 1, content := "A", created_at := 10 }]
          (([({ id := "f1", feedback_text := "x", is_valid := true, created_at := 10 } : Feedback)]).erase
            { id := "f1", feedback_text := "x", is_valid := true, created_at := 10 }) 30
        = buildMessageHistory "r"
            [{ id := "v1", version := 1, content := "A", created_at := 10 }]
            [{ id := "f1", feedback_text := "x", is_valid := true, created_at := 10 }] 30 :=
  ⟨by decide, by decide, by decide, by decide,
    boundary_feedback_contributes_nothing "r"
      [{ id := "v1", version := 1, content := "A", created_at := 10 }]
      [{ id := "f1", feedback_text := "x", is_valid := true, created_at := 10 }]
      { id := "f1", feedback_text := "x", is_valid := true, created_at := 10 }
      { id := "v1", version := 1, content := "A", created_at := 10 }
      30 (by decide) (by decide) (by decide) (by decide)⟩

/-! ## Claim C3 -/

/-- Counterexample to claim C3 as stated: the builder does not sort the
feedbacks of a window by creation timestamp; it emits them in the order
they were supplied.  With the feedback of timestamp 2 supplied before the
feedback of timestamp 1, both falling in the single attribution window,
the message of the later feedback precedes the message of the earlier one,
so the emission is not in ascending creation-timestamp order. -/
theorem window_feedbacks_not_sorted_counterexample :
    buildMessageHistory "r"
        [{ id := "v1", version := 1, content := "A", created_at := 0 }]
        [{ id := "f2", feedback_text := "b", is_valid := true, created_at := 2 },
         { id := "f1", feedback_text := "a", is_valid := true, created_at := 1 }] 10
      = [initialMessage "r",
         versionMessage { id := "v1", version := 1, content := "A", created_at := 0 },
         feedbackMessage { id := "f2", feedback_text := "b", is_valid := true, created_at := 2 },
         feedbackMessage { id := "f1", feedback_text := "a", is_valid := true, created_at := 1 }]
    ∧ ({ id := "f1", feedback_text := "a", is_valid := true, created_at := 1 } : Feedback).created_at
        < ({ id := "f2", feedback_text := "b", is_valid := true, created_at := 2 } : Feedback).created_at
    ∧ feedbackMessage { id := "f2", feedback_text := "b", is_valid := true, created_at := 2 }
        ≠ feedbackMessage { id := "f1", feedback_text := "a", is_valid := true, created_at := 1 } := by
  refine ⟨by decide, by decide, by decide⟩

/-- Claim C3 (amended): the feedbacks selected into an attribution window
are emitted in the order they appear in the supplied feedback sequence;
when that sequence is ascending by creation timestamp (as the event-source
fetch supplies it, ordering by `created_at`), the emitted block is in
ascending creation-timestamp order, and every emitted message has role
user, error flag the negation of the feedback's validity flag, and
back-reference the feedback's identifier. -/
theorem window_feedbacks_order_and_fields
    (u : String) (vs1 rest : List DraftVersion) (v : DraftVersion)
    (fbs : List Feedback) (currentTime : Nat)
    (hsorted : fbs.Pairwise (fun a b => a.created_at ≤ b.created_at)) :
    ∃ pre post,
      buildMessageHistory u (vs1 ++ v :: rest) fbs currentTime
        = pre ++ versionMessage v ::
            ((fbs.filter (inWindow v.created_at (windowClose rest currentTime))).map
                feedbackMessage ++ post)
      ∧ (fbs.filter (inWindow v.created_at (windowClose rest currentTime))).Pairwise
          (fun a b => a.created_at ≤ b.created_at)
      ∧ ∀ f ∈ fbs.filter (inWindow v.created_at (windowClose rest currentTime)),
          (feedbackMessage f).type = Role.user
          ∧ (feedbackMessage f).isError = some (!f.is_valid)
          ∧ (feedbackMessage f).feedbackId = some f.id := by
  obtain ⟨pre, hpre⟩ := interleave_append fbs currentTime vs1 (v :: rest)
  refine ⟨initialMessage u :: pre, interleave fbs currentTime rest, ?_, ?_, ?_⟩
  · show initialMessage u :: interleave fbs currentTime (vs1 ++ v :: rest) = _
    rw [hpre, interleave_cons]
    simp
  · exact hsorted.filter _
  · intro f _
    exact ⟨rfl, rfl, rfl⟩

/-- Witness for the amended C3 at a concrete input. -/
theorem window_feedbacks_order_and_fields_witness :
    (([{ id := "f1", feedback_text := "a", is_valid := true, created_at := 1 },
       { id := "f2", feedback_text := "b", is_valid := false, created_at := 2 }] :
        List Feedback).Pairwise (fun a b => a.created_at ≤ b.created_at))
    ∧ (∃ pre post,
        buildMessageHistory "r"
            ([] ++ { id := "v1", version := 1, content := "A", created_at := 0 } :: [])
            [{ id := "f1", feedback_text := "a", is_valid := true, created_at := 1 },
             { id := "f2", feedback_text := "b", is_valid := false, created_at := 2 }] 10
          = pre ++ versionMessage { id := "v1", version := 1, content := "A", created_at := 0 } ::
              ((([{ id := "f1", feedback_text := "a", is_valid := true, created_at := 1 },
                  { id := "f2", feedback_text := "b", is_valid := false, created_at := 2 }] :
                    List Feedback).filter
                  (inWindow 0 (windowClose [] 10))).map feedbackMessage ++ post)
        ∧ (([{ id := "f1", feedback_text := "a", is_valid := true, created_at := 1 },
            { id := "f2", feedback_text := "b", is_valid := false, created_at := 2 }] :
              List Feedback).filter (inWindow 0 (windowClose [] 10))).Pairwise
            (fun a b => a.created_at ≤ b.created_at)
        ∧ ∀ f ∈ ([{ id := "f1", feedback_text := "a", is_valid := true, created_at := 1 },
            { id := "f2", feedback_text := "b", is_valid := false, created_at := 2 }] :
              List Feedback).filter (inWindow 0 (windowClose [] 10)),
            (feedbackMessage f).type = Role.user
            ∧ (feedbackMessage f).isError = some (!f.is_valid)
            ∧ (feedbackMessage f).feedbackId = some f.id) :=
  ⟨by decide,
    window_feedbacks_order_and_fields "r" [] []
      { id := "v1", version := 1, content := "A", created_at := 0 }
      [{ id := "f1", feedback_text := "a", is_valid := true, created_at := 1 },
       { id := "f2", feedback_text := "b", is_valid := false, created_at := 2 }]
      10 (by decide)⟩

/-! ## Claim C4 -/

/-- Counterexample to claim C4 as stated: the last attribution window is
closed by the wall clock (`new Date()`), not by an unbounded-future
sentinel.  A feedback whose timestamp (10) is strictly after the last
revision's timestamp (0) but not before the clock reading (5) produces no
message at all. -/
theorem feedback_after_last_revision_counterexample :
    buildMessageHistory "r"
        [{ id := "v1", version := 1, content := "A", created_at := 0 }]
        [{ id := "f1", feedback_text := "late", is_valid := true, created_at := 10 }] 5
      = [initialMessage "r",
         versionMessage { id := "v1", version := 1, content := "A", created_at := 0 }]
    ∧ ({ id := "v1", version := 1, content := "A", created_at := 0 } : DraftVersion).created_at
        < ({ id := "f1", feedback_text := "late", is_valid := true, created_at := 10 } : Feedback).created_at
    ∧ feedbackMessage { id := "f1", feedback_text := "late", is_valid := true, created_at := 10 }
        ∉ buildMessageHistory "r"
            [{ id := "v1", version := 1, content := "A", created_at := 0 }]
            [{ id := "f1", feedback_text := "late", is_valid := true, created_at := 10 }] 5 := by
  refine ⟨by decide, by decide, by decide⟩

/-- Claim C4 (amended): for a non-empty revision sequence, every feedback
whose creation timestamp is strictly after the last revision's timestamp
and strictly before the clock reading at invocation appears at the end of
the output: the transcript ends with the last revision's message followed
exactly by the messages of the feedbacks of the last attribution window,
among them the given feedback's message. -/
theorem feedback_after_last_revision_at_end
    (u : String) (vs1 : List DraftVersion) (vlast : DraftVersion)
    (fbs : List Feedback) (f : Feedback) (currentTime : Nat)
    (hf : f ∈ fbs) (h1 : vlast.created_at < f.created_at)
    (h2 : f.created_at < currentTime) :
    ∃ pre,
      buildMessageHistory u (vs1 ++ [vlast]) fbs currentTime
        = pre ++ versionMessage vlast ::
            (fbs.filter (inWindow vlast.created_at currentTime)).map feedbackMessage
      ∧ feedbackMessage f ∈
          (fbs.filter (inWindow vlast.created_at currentTime)).map feedbackMessage := by
  obtain ⟨pre, hpre⟩ := interleave_append fbs currentTime vs1 [vlast]
  refine ⟨initialMessage u :: pre, ?_, ?_⟩
  · show initialMessage u :: interleave fbs currentTime (vs1 ++ [vlast]) = _
    rw [hpre, interleave_cons]
    simp [windowClose, interleave]
  · exact List.mem_map_of_mem feedbackMessage
      (List.mem_filter.mpr ⟨hf, by simp [inWindow, h1, h2]⟩)

/-- Witness for the amended C4 at a concrete input. -/
theorem feedback_after_last_revision_at_end_witness :
    ({ id := "f1", feedback_text := "x", is_valid := true, created_at := 3 } : Feedback)
      ∈ [({ id := "f1", feedback_text := "x", is_valid := true, created_at := 3 } : Feedback)]
    ∧ ({ id := "v1", version := 1, content := "A", created_at := 0 } : DraftVersion).created_at
        < ({ id := "f1", feedback_text := "x", is_valid := true, created_at := 3 } : Feedback).created_at
    ∧ ({ id := "f1", feedback_text := "x", is_valid := true, created_at := 3 } : Feedback).created_at
        < (10 : Nat)
    ∧ (∃ pre,
        buildMessageHistory "r"
            ([] ++ [{ id := "v1", version := 1, content := "A", created_at := 0 }])
            [{ id := "f1", feedback_text := "x", is_valid := true, created_at := 3 }] 10
          = pre ++ versionMessage { id := "v1", version := 1, content := "A", created_at := 0 } ::
              (([({ id := "f1", feedback_text := "x", is_valid := true, created_at := 3 } : Feedback)]).filter
                (inWindow 0 10)).map feedbackMessage
        ∧ feedbackMessage { id := "f1", feedback_text := "x", is_valid := true, created_at := 3 }
            ∈ (([({ id := "f1", feedback_text := "x", is_valid := true, created_at := 3 } : Feedback)]).filter
                (inWindow 0 10)).map feedbackMessage) :=
  ⟨by decide, by decide, by decide,
    feedback_after_last_revision_at_end "r" []
      { id := "v1", version := 1, content := "A", created_at := 0 }
      [{ id := "f1", feedback_text := "x", is_valid := true, created_at := 3 }]
      { id := "f1", feedback_text := "x", is_valid := true, created_at := 3 }
      10 (by decide) (by decide) (by decide)⟩

/-! ## Claim C5 -/

/-- Counterexample to claim C5 as stated: the builder reads the wall clock
(`new Date()`) to close the last attribution window, so its output is not
a function of the supplied inputs only.  With identical inputs but clock
readings 5 and 20, a feedback of timestamp 10 after the only revision is
dropped in the first run and emitted in the second. -/
theorem builder_wall_clock_dependence_counterexample :
    buildMessageHistory "r"
        [{ id := "v1", version := 1, content := "A", created_at := 0 }]
        [{ id := "f1", feedback_text := "x", is_valid := true, created_at := 10 }] 5
      ≠ buildMessageHistory "r"
          [{ id := "v1", version := 1, content := "A", created_at := 0 }]
          [{ id := "f1", feedback_text := "x", is_valid := true, created_at := 10 }] 20 := by
  decide

/-- Claim C5 (amended): the output is a function of the supplied inputs
and the clock reading at invocation; whenever every supplied feedback
timestamp is strictly in the past at both invocations (always the case for
rows created before the calls), two invocations with identical inputs
produce identical output sequences. -/
theorem builder_deterministic_for_past_feedbacks
    (u : String) (vs : List DraftVersion) (fbs : List Feedback) (t1 t2 : Nat)
    (h : ∀ f ∈ fbs, f.created_at < t1 ∧ f.created_at < t2) :
    buildMessageHistory u vs fbs t1 = buildMessageHistory u vs fbs t2 := by
  unfold buildMessageHistory
  congr 1
  induction vs with
  | nil => rfl
  | cons v rest ih =>
    have hclose : fbs.filter (inWindow v.created_at (windowClose rest t1))
        = fbs.filter (inWindow v.created_at (windowClose rest t2)) := by
      cases rest with
      | cons w tail => rfl
      | nil =>
        apply List.filter_congr
        intro g hg
        obtain ⟨hg1, hg2⟩ := h g hg
        simp [inWindow, windowClose, hg1, hg2]
    rw [interleave_cons, interleave_cons, hclose, ih]

/-- Witness for the amended C5 at a concrete input. -/
theorem builder_deterministic_for_past_feedbacks_witness :
    (∀ f ∈ [({ id := "f1", feedback_text := "x", is_valid := true, created_at := 3 } : Feedback)],
      f.created_at < 10 ∧ f.created_at < 20)
    ∧ buildMessageHistory "r"
          [{ id := "v1", version := 1, content := "A", created_at := 0 }]
          [{ id := "f1", feedback_text := "x", is_valid := true, created_at := 3 }] 10
        = buildMessageHistory "r"
            [{ id := "v1", version := 1, content := "A", created_at := 0 }]
            [{ id := "f1", feedback_text := "x", is_valid := true, created_at := 3 }] 20 :=
  ⟨by decide,
    builder_deterministic_for_past_feedbacks "r"
      [{ id := "v1", version := 1, content := "A", created_at := 0 }]
      [{ id := "f1", feedback_text := "x", is_valid := true, created_at := 3 }]
      10 20 (by decide)⟩

/-! ## Claim C6 -/

/-- Counterexample to claim C6 as stated: a feedback whose timestamp
exactly equals the (first and only) revision's timestamp falls in no
attribution window, so no display message at all is derived from it,
although it is in the input and the revision sequence is non-empty and
ascending. -/
theorem unique_window_assignment_counterexample :
    (buildMessageHistory "r"
        [{ id := "v1", version := 1, content := "A", created_at := 5 }]
        [{ id := "f1", feedback_text := "x", is_valid := true, created_at := 5 }] 10).countP
        (fun m => decide (m.feedbackId = some "f1")) = 0
    ∧ ¬ ((buildMessageHistory "r"
        [{ id := "v1", version := 1, content := "A", created_at := 5 }]
        [{ id := "f1", feedback_text := "x", is_valid := true, created_at := 5 }] 10).countP
        (fun m => decide (m.feedbackId = some "f1")) = 1) := by
  refine ⟨by decide, by decide⟩

theorem countP_eq_of_unique (p : Feedback → Bool) (f : Feedback) :
    ∀ l : List Feedback, (∀ g ∈ l, p g = true → g = f) →
      l.countP p = if p f = true then l.count f else 0 := by
  intro l
  induction l with
  | nil =>
    intro _
    cases hp : p f <;> simp
  | cons b t ih =>
    intro h
    have ht := ih (fun g hg => h g (List.mem_cons_of_mem _ hg))
    rw [List.countP_cons, List.count_cons, ht]
    cases hb : p b with
    | true =>
      have hbf : b = f := h b (List.mem_cons_self b t) hb
      subst hbf
      simp [hb]
    | false =>
      by_cases hbf : b = f
      · subst hbf
        simp [hb]
      · have hbeq : (b == f) = false := by simp [hbf]
        simp [hbeq]

theorem countP_filter_and (p q : Feedback → Bool) :
    ∀ l : List Feedback, (l.filter q).countP p = l.countP (fun a => p a && q a) := by
  intro l
  induction l with
  | nil => rfl
  | cons b t ih =>
    rw [List.filter_cons, List.countP_cons]
    cases hq : q b with
    | true => simp [List.countP_cons, ih]
    | false => simp [ih]

/-- In the traversal output, the number of messages back-referencing
feedback `f` (unique in the input by identifier, appearing once) equals
the number of attribution windows containing `f`. -/
theorem countP_interleave_eq_windowCount
    (fbs : List Feedback) (f : Feedback) (currentTime : Nat)
    (huniq : ∀ g ∈ fbs, g.id = f.id → g = f) (hcount : fbs.count f = 1) :
    ∀ vs : List DraftVersion,
      (interleave fbs currentTime vs).countP
          (fun m => decide (m.feedbackId = some f.id))
        = windowCount f currentTime vs := by
  intro vs
  induction vs with
  | nil => rfl
  | cons v rest ih =>
    rw [interleave_cons, List.countP_cons, List.countP_append, ih]
    have hv : (decide ((versionMessage v).feedbackId = some f.id)) = false := by
      simp [versionMessage]
    have hblock :
        ((fbs.filter (inWindow v.created_at (windowClose rest currentTime))).map
            feedbackMessage).countP (fun m => decide (m.feedbackId = some f.id))
          = if inWindow v.created_at (windowClose rest currentTime) f then 1 else 0 := by
      rw [List.countP_map]
      have heq : ((fun m => decide (m.feedbackId = some f.id)) ∘ feedbackMessage)
          = fun g => decide (g.id = f.id) := by
        funext g
        simp [feedbackMessage]
      rw [heq, countP_filter_and]
      rw [countP_eq_of_unique _ f fbs ?ug]
      case ug =>
        intro g _hg hpg
        rw [Bool.and_eq_true] at hpg
        exact huniq g _hg (of_decide_eq_true hpg.1)
      cases hw : inWindow v.created_at (windowClose rest currentTime) f with
      | true => simp [hw, hcount]
      | false => simp [hw]
    rw [hblock, hv]
    simp [windowCount, Nat.add_comm]

theorem windowCount_cons (f : Feedback) (currentTime : Nat)
    (v : DraftVersion) (rest : List DraftVersion) :
    windowCount f currentTime (v :: rest)
      = (if inWindow v.created_at (windowClose rest currentTime) f then 1 else 0)
        + windowCount f currentTime rest := rfl

theorem windowCount_zero_of_le (f : Feedback) (currentTime : Nat) :
    ∀ vs : List DraftVersion, (∀ v ∈ vs, f.created_at ≤ v.created_at) →
      windowCount f currentTime vs = 0 := by
  intro vs
  induction vs with
  | nil => intro _; rfl
  | cons v rest ih =>
    intro h
    have hop : inWindow v.created_at (windowClose rest currentTime) f = false := by
      have : decide (v.created_at < f.created_at) = false :=
        decide_eq_false (Nat.not_lt.mpr (h v (List.mem_cons_self v rest)))
      simp [inWindow, this]
    simp [windowCount, hop, ih (fun x hx => h x (List.mem_cons_of_mem _ hx))]

/-- With strictly increasing revision timestamps, a feedback created
strictly after the first revision, strictly before the clock reading, and
not exactly on any later revision boundary falls in exactly one
attribution window. -/
theorem windowCount_eq_one (f : Feedback) (currentTime : Nat) :
    ∀ (rest : List DraftVersion) (v : DraftVersion),
      (v :: rest).Pairwise (fun a b => a.created_at < b.created_at) →
      v.created_at < f.created_at → f.created_at < currentTime →
      (∀ x ∈ rest, x.created_at ≠ f.created_at) →
      windowCount f currentTime (v :: rest) = 1 := by
  intro rest
  induction rest with
  | nil =>
    intro v _ h1 h2 _
    have hop : inWindow v.created_at (windowClose [] currentTime) f = true := by
      simp [inWindow, windowClose, h1, h2]
    simp [windowCount, hop]
  | cons w rtail ih =>
    intro v hpw h1 h2 hne
    rw [List.pairwise_cons] at hpw
    obtain ⟨_hv, hrest⟩ := hpw
    by_cases hw : f.created_at < w.created_at
    · have hcur : inWindow v.created_at (windowClose (w :: rtail) currentTime) f = true := by
        simp [inWindow, windowClose, h1, hw]
      have hzero : windowCount f currentTime (w :: rtail) = 0 := by
        apply windowCount_zero_of_le
        intro x hx
        rcases List.mem_cons.mp hx with rfl | hx'
        · exact Nat.le_of_lt hw
        · rw [List.pairwise_cons] at hrest
          exact Nat.le_of_lt (Nat.lt_trans hw (hrest.1 x hx'))
      rw [windowCount_cons, hcur, hzero]
      simp
    · have hw' : w.created_at < f.created_at :=
        Nat.lt_of_le_of_ne (Nat.not_lt.mp hw) (hne w (List.mem_cons_self w rtail))
      have hcur : inWindow v.created_at (windowClose (w :: rtail) currentTime) f = false := by
        have : decide (f.created_at < windowClose (w :: rtail) currentTime) = false :=
          decide_eq_false (Nat.not_lt.mpr (Nat.le_of_lt hw'))
        simp [inWindow, this]
      have htail := ih w hrest hw' h2 (fun x hx => hne x (List.mem_cons_of_mem _ hx))
      rw [windowCount_cons, hcur, htail]
      simp

/-- Claim C6 (amended): for a non-empty revision sequence with strictly
increasing timestamps, a feedback that occurs once in the input, is the
only input feedback with its identifier, and whose timestamp is strictly
after the first revision's, strictly before the clock reading, and not
exactly equal to any later revision's, falls in exactly one attribution
window: exactly one display message of the built transcript
back-references it. -/
theorem unique_window_assignment
    (u : String) (v0 : DraftVersion) (vrest : List DraftVersion)
    (fbs : List Feedback) (f : Feedback) (currentTime : Nat)
    (hsorted : (v0 :: vrest).Pairwise (fun a b => a.created_at < b.created_at))
    (h0 : v0.created_at < f.created_at) (hclk : f.created_at < currentTime)
    (hne : ∀ v ∈ vrest, v.created_at ≠ f.created_at)
    (huniq : ∀ g ∈ fbs, g.id = f.id → g = f) (hcount : fbs.count f = 1) :
    (buildMessageHistory u (v0 :: vrest) fbs currentTime).countP
        (fun m => decide (m.feedbackId = some f.id)) = 1 := by
  unfold buildMessageHistory
  rw [List.countP_cons,
    countP_interleave_eq_windowCount fbs f currentTime huniq hcount (v0 :: vrest),
    windowCount_eq_one f currentTime vrest v0 hsorted h0 hclk hne]
  simp [initialMessage]

/-- Witness for the amended C6 at a concrete input. -/
theorem unique_window_assignment_witness :
    (([{ id := "v1", version := 1, content := "A", created_at := 0 },
       { id := "v2", version := 2, content := "B", created_at := 20 }] :
        List DraftVersion).Pairwise (fun a b => a.created_at < b.created_at))
    ∧ (0 : Nat) < 7 ∧ (7 : Nat) < 30
    ∧ (∀ v ∈ [({ id := "v2", version := 2, content := "B", created_at := 20 } : DraftVersion)],
        v.created_at ≠ 7)
    ∧ (∀ g ∈ [({ id := "f1", feedback_text := "x", is_valid := true, created_at := 7 } : Feedback)],
        g.id = "f1" → g = { id := "f1", feedback_text := "x", is_valid := true, created_at := 7 })
    ∧ ([({ id := "f1", feedback_text := "x", is_valid := true, created_at := 7 } : Feedback)]).count
        { id := "f1", feedback_text := "x", is_valid := true, created_at := 7 } = 1
    ∧ (buildMessageHistory "r"
          [{ id := "v1", version := 1, content := "A", created_at := 0 },
           { id := "v2", version := 2, content := "B", created_at := 20 }]
          [{ id := "f1", feedback_text := "x", is_valid := true, created_at := 7 }] 30).countP
        (fun m => decide (m.feedbackId = some "f1")) = 1 :=
  ⟨by decide, by decide, by decide, by decide, by decide, by decide,
    unique_window_assignment "r"
      { id := "v1", version := 1, content := "A", created_at := 0 }
      [{ id := "v2", version := 2, content := "B", created_at := 20 }]
      [{ id := "f1", feedback_text := "x", is_valid := true, created_at := 7 }]
      { id := "f1", feedback_text := "x", is_valid := true, created_at := 7 }
      30 (by decide) (by decide) (by decide) (by decide) (by decide) (by decide)⟩

/-! ## Claim C7 -/

theorem interleave_no_feedbacks (currentTime : Nat) :
    ∀ vs : List DraftVersion,
      interleave [] currentTime vs = vs.map versionMessage := by
  intro vs
  induction vs with
  | nil => rfl
  | cons v rest ih =>
    rw [interleave_cons, ih]
    simp

/-- Counterexample to claim C7 as stated: with two revisions and no
feedbacks the roles are user, assistant, assistant — the second and third
messages are both assistant-authored, so the roles do not alternate
user/assistant starting with user. -/
theorem transcript_roles_counterexample :
    (buildMessageHistory "r"
        [{ id := "v1", version := 1, content := "A", created_at := 0 },
         { id := "v2", version := 2, content := "B", created_at := 10 }] [] 20).map
        Message.type
      = [Role.user, Role.assistant, Role.assistant]
    ∧ (buildMessageHistory "r"
        [{ id := "v1", version := 1, content := "A", created_at := 0 },
         { id := "v2", version := 2, content := "B", created_at := 10 }] [] 20).map
        Message.type
      ≠ [Role.user, Role.assistant, Role.user] := by
  refine ⟨by decide, by decide⟩

/-- Claim C7 (amended): for a revision sequence of length N and no
feedbacks, the output has exactly N+1 messages: the original-request
message with role user first, followed by the N revision messages, all
with role assistant.  In particular for N = 0 the output is exactly the
single original-request message. -/
theorem transcript_no_feedbacks_shape
    (u : String) (vs : List DraftVersion) (currentTime : Nat) :
    buildMessageHistory u vs [] currentTime
        = initialMessage u :: vs.map versionMessage
    ∧ (buildMessageHistory u vs [] currentTime).length = vs.length + 1
    ∧ (initialMessage u).type = Role.user
    ∧ ∀ m ∈ vs.map versionMessage, m.type = Role.assistant := by
  have hshape : buildMessageHistory u vs [] currentTime
      = initialMessage u :: vs.map versionMessage := by
    unfold buildMessageHistory
    rw [interleave_no_feedbacks]
  refine ⟨hshape, ?_, rfl, ?_⟩
  · rw [hshape]
    simp
  · intro m hm
    obtain ⟨v, _, rfl⟩ := List.mem_map.mp hm
    rfl

/-- Witness for the amended C7 at a concrete input (N = 0). -/
theorem transcript_no_feedbacks_shape_witness :
    buildMessageHistory "Write a launch email" [] [] 5
        = initialMessage "Write a launch email" :: ([] : List DraftVersion).map versionMessage
    ∧ (buildMessageHistory "Write a launch email" [] [] 5).length
        = ([] : List DraftVersion).length + 1
    ∧ (initialMessage "Write a launch email").type = Role.user
    ∧ ∀ m ∈ ([] : List DraftVersion).map versionMessage, m.type = Role.assistant :=
  transcript_no_feedbacks_shape "Write a launch email" [] 5

/-! ## Claim C8 -/

/-- Claim C8: if the revisions fetch or the feedbacks fetch fails, the
whole transcript load fails with an error and the displayed message list
is left exactly as it was — no partial transcript is shown. -/
theorem failed_fetch_aborts_load
    (u : String) (prev : List Message)
    (vr : Except String (List DraftVersion)) (fr : Except String (List Feedback))
    (currentTime : Nat)
    (h : (∃ e, vr = Except.error e) ∨ (∃ e, fr = Except.error e)) :
    (∃ e, loadTranscript u vr fr currentTime = Except.error e)
    ∧ messagesAfterLoad prev (loadTranscript u vr fr currentTime) = prev := by
  rcases h with ⟨e, he⟩ | ⟨e, he⟩
  · subst he
    exact ⟨⟨e, rfl⟩, rfl⟩
  · cases vr with
    | error e2 => subst he; exact ⟨⟨e2, rfl⟩, rfl⟩
    | ok versions => subst he; exact ⟨⟨e, rfl⟩, rfl⟩

/-- Witness for C8 at a concrete input: a failing feedbacks fetch. -/
theorem failed_fetch_aborts_load_witness :
    ((∃ e, (Except.ok [({ id := "v1", version := 1, content := "A", created_at := 0 } : DraftVersion)] :
        Except String (List DraftVersion)) = Except.error e)
      ∨ (∃ e, (Except.error "network" : Except String (List Feedback)) = Except.error e))
    ∧ (∃ e, loadTranscript "r"
          (Except.ok [{ id := "v1", version := 1, content := "A", created_at := 0 }])
          (Except.error "network") 10 = Except.error e)
    ∧ messagesAfterLoad [initialMessage "old"]
        (loadTranscript "r"
          (Except.ok [{ id := "v1", version := 1, content := "A", created_at := 0 }])
          (Except.error "network") 10) = [initialMessage "old"] :=
  ⟨Or.inr ⟨"network", rfl⟩,
    (failed_fetch_aborts_load "r" [initialMessage "old"]
      (Except.ok [{ id := "v1", version := 1, content := "A", created_at := 0 }])
      (Except.error "network") 10 (Or.inr ⟨"network", rfl⟩)).1,
    (failed_fetch_aborts_load "r" [initialMessage "old"]
      (Except.ok [{ id := "v1", version := 1, content := "A", created_at := 0 }])
      (Except.error "network") 10 (Or.inr ⟨"network", rfl⟩)).2⟩

/-! ## Claim C9 -/

/-- Claim C9: deleting feedback `fid` from the conversation view removes
exactly the messages whose back-reference equals `fid`: the result is a
sublist of the original (relative order of survivors preserved), contains
no message back-referencing `fid`, keeps every other message with its
multiplicity, and drops every message back-referencing `fid`. -/
theorem delete_feedback_frame (msgs : List Message) (fid : String) :
    (deleteFeedbackUpdate msgs fid).Sublist msgs
    ∧ (∀ m ∈ deleteFeedbackUpdate msgs fid, m.feedbackId ≠ some fid)
    ∧ (∀ m : Message, m.feedbackId ≠ some fid →
        (deleteFeedbackUpdate msgs fid).count m = msgs.count m)
    ∧ (∀ m ∈ msgs, m.feedbackId = some fid → m ∉ deleteFeedbackUpdate msgs fid) := by
  refine ⟨List.filter_sublist _, ?_, ?_, ?_⟩
  · intro m hm
    have hp := (List.mem_filter.mp hm).2
    simp only [Bool.not_eq_true'] at hp
    simp only [beq_eq_false_iff_ne, ne_eq] at hp
    exact hp
  · intro m hm
    induction msgs with
    | nil => rfl
    | cons b t ih =>
      rw [List.count_cons]
      unfold deleteFeedbackUpdate
      rw [List.filter_cons]
      by_cases hb : b.feedbackId = some fid
      · have hbm : (b == m) = false := by
          have : b ≠ m := fun hbm => hm (hbm ▸ hb)
          simp [this]
        simp only [hb, hbm]
        simp
        exact ih
      · have : (!(b.feedbackId == some fid)) = true := by simp [hb]
        simp only [this, if_pos]
        rw [List.count_cons]
        unfold deleteFeedbackUpdate at ih
        rw [ih]
  · intro m _hmem hm hcontra
    have hp := (List.mem_filter.mp hcontra).2
    simp only [Bool.not_eq_true'] at hp
    simp only [beq_eq_false_iff_ne, ne_eq] at hp
    exact hp hm

/-- Witness for C9 at a concrete input. -/
theorem delete_feedback_frame_witness :
    (deleteFeedbackUpdate
        [initialMessage "r",
         feedbackMessage { id := "f1", feedback_text := "x", is_valid := false, created_at := 1 }]
        "f1").Sublist
      [initialMessage "r",
       feedbackMessage { id := "f1", feedback_text := "x", is_valid := false, created_at := 1 }]
    ∧ (∀ m ∈ deleteFeedbackUpdate
        [initialMessage "r",
         feedbackMessage { id := "f1", feedback_text := "x", is_valid := false, created_at := 1 }]
        "f1", m.feedbackId ≠ some "f1")
    ∧ (∀ m : Message, m.feedbackId ≠ some "f1" →
        (deleteFeedbackUpdate
          [initialMessage "r",
           feedbackMessage { id := "f1", feedback_text := "x", is_valid := false, created_at := 1 }]
          "f1").count m
        = ([initialMessage "r",
            feedbackMessage { id := "f1", feedback_text := "x", is_valid := false, created_at := 1 }]).count m)
    ∧ (∀ m ∈ [initialMessage "r",
          feedbackMessage { id := "f1", feedback_text := "x", is_valid := false, created_at := 1 }],
        m.feedbackId = some "f1" →
          m ∉ deleteFeedbackUpdate
            [initialMessage "r",
             feedbackMessage { id := "f1", feedback_text := "x", is_valid := false, created_at := 1 }]
            "f1") :=
  delete_feedback_frame
    [initialMessage "r",
     feedbackMessage { id := "f1", feedback_text := "x", is_valid := false, created_at := 1 }]
    "f1"

/-! ## Claim C10 -/

/-- Claim C10: every feedback row created through this repository's write
path carries validity flag true: the serverless handler's insert payload
sets `is_valid` to `true`, the schema default is `true`, and the message
rendered for such a row never has the error flag set
(`isError = some false`). -/
theorem handler_feedback_always_valid
    (draftId feedbackText rowId : String) (ts : Nat) :
    (handlerFeedbackInsert draftId feedbackText).is_valid = true
    ∧ email_feedbacks_is_valid_default = true
    ∧ (rowOfInsert (handlerFeedbackInsert draftId feedbackText) rowId ts).is_valid = true
    ∧ (feedbackMessage
        (rowOfInsert (handlerFeedbackInsert draftId feedbackText) rowId ts)).isError
      = some false :=
  ⟨rfl, rfl, rfl, rfl⟩
